import Mathlib

set_option maxRecDepth 40000

/-!
Verification of the resilient API-access layer of the crypto-mcp-server
repository: a shallow embedding of `src/api/client.py` (retry loop),
`src/utils/errors.py` (error classification), `src/utils/cache.py`
(cache key generation, `CryptoCache`, `RateLimiter`),
`src/utils/validators.py` (`sanitize_parameters`) and
`src/api/models.py` (pydantic record decoding), together with theorems
settling the specification claims.
-/

namespace CryptoMCP

/-! ## Error taxonomy — `src/utils/errors.py`

Each Python exception class is one constructor; the carried string is the
`message` attribute it is constructed with (which is also its `str()`). -/

inductive PyExc where
  | authenticationError (msg : String)
  | rateLimitError (msg : String)
  | apiConnectionError (msg : String)
  | apiTimeoutError (msg : String)
  | invalidResponseError (msg : String)
  | invalidParameterError (param : String) (msg : String)
  | cryptocurrencyNotFoundError (msg : String)
  | apiError (msg : String)
  deriving DecidableEq, Repr

/-- The `str(e)` of an exception: the message it was constructed with
(`errors.py` sets `self.message = message` and passes it to `Exception`). -/
def PyExc.message : PyExc → String
  | .authenticationError m => m
  | .rateLimitError m => m
  | .apiConnectionError m => m
  | .apiTimeoutError m => m
  | .invalidResponseError m => m
  | .invalidParameterError _ m => m
  | .cryptocurrencyNotFoundError m => m
  | .apiError m => m

/-- Embeds `handle_api_error(status_code, response_data)` from `src/utils/errors.py`,
embedded as returning the exception it raises.  `errorMessage` stands for the
already-extracted `response_data.get("status", {}).get("error_message",
"Unknown error")` value. -/
def handleApiError (statusCode : Nat) (errorMessage : String) : PyExc :=
  if statusCode = 401 then .authenticationError errorMessage
  else if statusCode = 429 then .rateLimitError errorMessage
  else if statusCode = 400 then .invalidParameterError "request" errorMessage
  else if statusCode = 404 then .cryptocurrencyNotFoundError errorMessage
  else if 500 ≤ statusCode then .apiConnectionError ("Server error: " ++ errorMessage)
  else .apiError ("API error (status " ++ toString statusCode ++ "): " ++ errorMessage)

/-! ## Request executor — `CoinMarketCapClient._make_request` in `src/api/client.py` -/

/-- Outcome of one physical HTTP attempt, as seen by the `try` block of
`_make_request`.  `response status data errorMessage` is an HTTP response:
`data` models `response.json()` (consumed when `status == 200`) and
`errorMessage` models the error message extracted from the error body on the
non-200 path.  `timeout` / `connectError` model `httpx.TimeoutException` /
`httpx.ConnectError` raised by the transport. -/
inductive Outcome (α : Type) where
  | response (status : Nat) (data : α) (errorMessage : String)
  | timeout (msg : String)
  | connectError (msg : String)
  deriving DecidableEq

/-- Result of a logical call: the returned data or the raised exception. -/
inductive ReqResult (α : Type) where
  | ok (data : α)
  | raised (e : PyExc)
  deriving DecidableEq

/-- Observable events of one logical `_make_request` call: the single
`rate_limiter.wait_for_token()` acquisition, each physical HTTP attempt
(numbered from 0), and each `asyncio.sleep(2 ** retries)` backoff. -/
inductive Event where
  | acquireToken
  | attempt (i : Nat)
  | backoffSleep (seconds : Nat)
  deriving DecidableEq

/-- One iteration of the `while` body in `_make_request`:
* status 200 → `return data`;
* other status → `handle_api_error` raises; `AuthenticationError` and
  `RateLimitError` are re-raised by their dedicated `except` clause, every
  other exception falls to `except Exception` and is recorded as
  `APIError(f"Unexpected error: {e}")`;
* `httpx.TimeoutException` → record `APITimeoutError(f"Request timeout: {e}")`;
* `httpx.ConnectError` → record `APIConnectionError(f"Connection failed: {e}")`. -/
inductive StepResult (α : Type) where
  | ret (data : α)
  | raiseNow (e : PyExc)
  | record (e : PyExc)
  deriving DecidableEq

def attemptStep {α : Type} (o : Outcome α) : StepResult α :=
  match o with
  | .response status data errorMessage =>
    if status = 200 then .ret data
    else
      match handleApiError status errorMessage with
      | .authenticationError m => .raiseNow (.authenticationError m)
      | .rateLimitError m => .raiseNow (.rateLimitError m)
      | e => .record (.apiError ("Unexpected error: " ++ e.message))
  | .timeout m => .record (.apiTimeoutError ("Request timeout: " ++ m))
  | .connectError m => .record (.apiConnectionError ("Connection failed: " ++ m))

/-- Result of running `_make_request`: outcome, number of physical attempts
performed, and the event trace. -/
structure RunResult (α : Type) where
  result : ReqResult α
  attemptsMade : Nat
  events : List Event
  deriving DecidableEq

/-- The `while retries <= self.max_retries` loop of `_make_request`.
`fuel` is the number of remaining admissible iterations
(`maxRetries + 1 - retries`); `retries` and `last` are the Python locals.
On exhaustion the code runs `raise last_exception or APIError("Max retries
exceeded")`.  After a recorded failure the code increments `retries` and,
if `retries <= max_retries` still holds, sleeps `2 ** retries` seconds. -/
def requestLoop {α : Type} (maxRetries : Nat) (attempts : Nat → Outcome α) :
    Nat → Nat → Option PyExc → RunResult α
  | 0, retries, last =>
    ⟨.raised (last.getD (.apiError "Max retries exceeded")), retries, []⟩
  | fuel + 1, retries, _last =>
    match attemptStep (attempts retries) with
    | .ret data => ⟨.ok data, retries + 1, [.attempt retries]⟩
    | .raiseNow e => ⟨.raised e, retries + 1, [.attempt retries]⟩
    | .record e =>
      let rest := requestLoop maxRetries attempts fuel (retries + 1) (some e)
      ⟨rest.result, rest.attemptsMade,
        .attempt retries ::
          ((if retries + 1 ≤ maxRetries then [.backoffSleep (2 ^ (retries + 1))] else [])
            ++ rest.events)⟩

/-- Embeds `_make_request`: acquire one rate-limiter token (`wait_for_token`), then
run the retry loop with `retries = 0`, `last_exception = None`.
`attempts i` is the outcome of the `i`-th physical HTTP attempt. -/
def makeRequest {α : Type} (maxRetries : Nat) (attempts : Nat → Outcome α) :
    RunResult α :=
  let r := requestLoop maxRetries attempts (maxRetries + 1) 0 none
  ⟨r.result, r.attemptsMade, .acquireToken :: r.events⟩

/-- Backoff sleeps of a trace, in order. -/
def sleepsOf (events : List Event) : List Nat :=
  events.filterMap fun e =>
    match e with
    | .backoffSleep s => some s
    | _ => none

/-- Number of rate-limiter acquisitions in a trace. -/
def acquireCount (events : List Event) : Nat :=
  events.countP fun e =>
    match e with
    | .acquireToken => true
    | _ => false

/-- Number of physical HTTP attempts in a trace. -/
def attemptCount (events : List Event) : Nat :=
  events.countP fun e =>
    match e with
    | .attempt _ => true
    | _ => false

/-! ## MD5 — `hashlib.md5(key_data.encode()).hexdigest()` used by
`CryptoCache._generate_key` in `src/utils/cache.py`.  Standard MD5 over a
byte list, words as `Nat` reduced modulo `2 ^ 32`. -/

def w32 (x : Nat) : Nat := x % 4294967296

/-- Left rotation of a 32-bit word. -/
def rotl32 (x n : Nat) : Nat := w32 (x <<< n) ||| (x >>> (32 - n))

/-- MD5 sine-derived constants `K[0..63]`. -/
def md5K : List Nat :=
  [0xd76aa478, 0xe8c7b756, 0x242070db, 0xc1bdceee,
   0xf57c0faf, 0x4787c62a, 0xa8304613, 0xfd469501,
   0x698098d8, 0x8b44f7af, 0xffff5bb1, 0x895cd7be,
   0x6b901122, 0xfd987193, 0xa679438e, 0x49b40821,
   0xf61e2562, 0xc040b340, 0x265e5a51, 0xe9b6c7aa,
   0xd62f105d, 0x02441453, 0xd8a1e681, 0xe7d3fbc8,
   0x21e1cde6, 0xc33707d6, 0xf4d50d87, 0x455a14ed,
   0xa9e3e905, 0xfcefa3f8, 0x676f02d9, 0x8d2a4c8a,
   0xfffa3942, 0x8771f681, 0x6d9d6122, 0xfde5380c,
   0xa4beea44, 0x4bdecfa9, 0xf6bb4b60, 0xbebfbc70,
   0x289b7ec6, 0xeaa127fa, 0xd4ef3085, 0x04881d05,
   0xd9d4d039, 0xe6db99e5, 0x1fa27cf8, 0xc4ac5665,
   0xf4292244, 0x432aff97, 0xab9423a7, 0xfc93a039,
   0x655b59c3, 0x8f0ccc92, 0xffeff47d, 0x85845dd1,
   0x6fa87e4f, 0xfe2ce6e0, 0xa3014314, 0x4e0811a1,
   0xf7537e82, 0xbd3af235, 0x2ad7d2bb, 0xeb86d391]

/-- MD5 per-round left-rotation amounts `S[0..63]`. -/
def md5S : List Nat :=
  [7, 12, 17, 22, 7, 12, 17, 22, 7, 12, 17, 22, 7, 12, 17, 22,
   5, 9, 14, 20, 5, 9, 14, 20, 5, 9, 14, 20, 5, 9, 14, 20,
   4, 11, 16, 23, 4, 11, 16, 23, 4, 11, 16, 23, 4, 11, 16, 23,
   6, 10, 15, 21, 6, 10, 15, 21, 6, 10, 15, 21, 6, 10, 15, 21]

/-- MD5 round function (F, G, H, I depending on the round index). -/
def md5F (i b c d : Nat) : Nat :=
  if i < 16 then (b &&& c) ||| ((b ^^^ 0xffffffff) &&& d)
  else if i < 32 then (d &&& b) ||| ((d ^^^ 0xffffffff) &&& c)
  else if i < 48 then b ^^^ c ^^^ d
  else c ^^^ (b ||| (d ^^^ 0xffffffff))

/-- Message-word index used at round `i`. -/
def md5G (i : Nat) : Nat :=
  if i < 16 then i
  else if i < 32 then (5 * i + 1) % 16
  else if i < 48 then (3 * i + 5) % 16
  else (7 * i) % 16

/-- Little-endian 32-bit word `j` of a 64-byte block. -/
def wordLE (block : List Nat) (j : Nat) : Nat :=
  block.getD (4 * j) 0 + 256 * block.getD (4 * j + 1) 0 +
    65536 * block.getD (4 * j + 2) 0 + 16777216 * block.getD (4 * j + 3) 0

/-- One of the 64 MD5 rounds. -/
def md5Round (m : Nat → Nat) (st : Nat × Nat × Nat × Nat) (i : Nat) :
    Nat × Nat × Nat × Nat :=
  let (a, b, c, d) := st
  let f := w32 (md5F i b c d + a + md5K.getD i 0 + m (md5G i))
  (d, w32 (b + rotl32 f (md5S.getD i 0)), b, c)

/-- Process one 64-byte block. -/
def md5Chunk (block : List Nat) (st : Nat × Nat × Nat × Nat) :
    Nat × Nat × Nat × Nat :=
  let (a0, b0, c0, d0) := st
  let (a, b, c, d) := (List.range 64).foldl (md5Round (wordLE block)) (a0, b0, c0, d0)
  (w32 (a0 + a), w32 (b0 + b), w32 (c0 + c), w32 (d0 + d))

/-- MD5 padding: `0x80`, zeros to 56 mod 64, then the bit length as a
little-endian 64-bit integer. -/
def md5Pad (msg : List Nat) : List Nat :=
  let len := msg.length
  let zeros := (119 - len % 64) % 64
  let lenBytes := (List.range 8).map fun i =>
    (((len * 8) % 18446744073709551616) >>> (8 * i)) % 256
  msg ++ 0x80 :: (List.replicate zeros 0 ++ lenBytes)

/-- MD5 digest of a byte list, as the four 32-bit state words. -/
def md5Digest (msg : List Nat) : Nat × Nat × Nat × Nat :=
  let padded := md5Pad msg
  (List.range (padded.length / 64)).foldl
    (fun st i => md5Chunk ((padded.drop (64 * i)).take 64) st)
    (0x67452301, 0xefcdab89, 0x98badcfe, 0x10325476)

def hexChar (n : Nat) : Char := "0123456789abcdef".data.getD n '0'

def byteHex (n : Nat) : String := String.mk [hexChar (n / 16), hexChar (n % 16)]

/-- Hex rendering of one state word, least-significant byte first. -/
def wordHexLE (w : Nat) : String :=
  byteHex (w % 256) ++ byteHex (w / 256 % 256) ++ byteHex (w / 65536 % 256) ++
    byteHex (w / 16777216 % 256)

/-- Computes `hashlib.md5(s.encode()).hexdigest()`.  `.encode()` is UTF-8, which on
the ASCII strings produced by `json.dumps` is the code points themselves. -/
def md5hex (s : String) : String :=
  let (a, b, c, d) := md5Digest (s.data.map Char.toNat)
  wordHexLE a ++ wordHexLE b ++ wordHexLE c ++ wordHexLE d

/-! ## Cache key generation — `CryptoCache._generate_key` in
`src/utils/cache.py`, and `sanitize_parameters` in `src/utils/validators.py` -/

/-- A keyword-argument value as passed to `_generate_key`: the client code
passes strings, ints, or `None`. -/
inductive ParamValue where
  | pStr (s : String)
  | pInt (n : Int)
  | pNone
  deriving DecidableEq

/-- The `json.dumps` escaping of one character (quote and backslash; the
parameter strings of this client are printable ASCII). -/
def escapeJsonChar (c : Char) : String :=
  if c = '"' then "\\\"" else if c = '\\' then "\\\\" else String.singleton c

/-- Renders `json.dumps` of a string. -/
def dumpString (s : String) : String :=
  "\"" ++ String.join (s.data.map escapeJsonChar) ++ "\""

/-- Renders `json.dumps` of one value. -/
def ParamValue.dump : ParamValue → String
  | .pStr s => dumpString s
  | .pInt n => toString n
  | .pNone => "null"

/-- Renders `json.dumps(sorted_items)` with the default separators: a list of
2-tuples is rendered as a list of 2-element lists. -/
def jsonDumpsPairs (items : List (String × ParamValue)) : String :=
  "[" ++
    String.intercalate ", "
      (items.map fun p => "[" ++ dumpString p.1 ++ ", " ++ p.2.dump ++ "]") ++
    "]"

/-- Python string comparison: lexicographic by code point. -/
def charListLt : List Char → List Char → Bool
  | [], [] => false
  | [], _ :: _ => true
  | _ :: _, [] => false
  | a :: as, b :: bs =>
    if a < b then true else if b < a then false else charListLt as bs

/-- Pair `a` comes no later than `b` under Python tuple comparison restricted to
the (distinct) keyword-argument keys: `not (b.key < a.key)`. -/
def pairKeyLe (a b : String × ParamValue) : Prop :=
  charListLt b.1.data a.1.data = false

instance : DecidableRel pairKeyLe := fun a b => by
  unfold pairKeyLe; infer_instance

/-- Embeds `sorted(kwargs.items())`: Python sorts the key/value tuples
lexicographically; keyword-argument keys are distinct, so the order is the
(stable) order of the keys under code-point comparison. -/
def sortPairs (l : List (String × ParamValue)) : List (String × ParamValue) :=
  l.insertionSort pairKeyLe

/-- Embeds `CryptoCache._generate_key(prefix, **kwargs)`. -/
def generateKey (pfx : String) (kwargs : List (String × ParamValue)) : String :=
  pfx ++ ":" ++ md5hex (jsonDumpsPairs (sortPairs kwargs))

/-- Embeds `sanitize_parameters(params)` from `src/utils/validators.py`: drop
entries whose value is `None`. -/
def sanitizeParameters (params : List (String × ParamValue)) :
    List (String × ParamValue) :=
  params.filter fun p => p.2 ≠ ParamValue.pNone

/-! ## RateLimiter — `src/utils/cache.py`, class `RateLimiter`

Wall-clock timestamps and the (float) token count are modelled as rationals. -/

structure RateLimiter where
  requestsPerPeriod : ℚ
  periodSeconds : ℚ
  tokens : ℚ
  lastUpdate : ℚ
  deriving DecidableEq

/-- Embeds `RateLimiter.__init__`: the bucket starts full, stamped with the
construction time. -/
def mkRateLimiter (requestsPerPeriod periodSeconds now : ℚ) : RateLimiter :=
  ⟨requestsPerPeriod, periodSeconds, requestsPerPeriod, now⟩

/-- Embeds `RateLimiter._refill_tokens`, called at wall-clock time `now`. -/
def refillTokens (now : ℚ) (rl : RateLimiter) : RateLimiter :=
  let elapsed := now - rl.lastUpdate
  let tokensToAdd := elapsed / rl.periodSeconds * rl.requestsPerPeriod
  { rl with
      tokens := min rl.requestsPerPeriod (rl.tokens + tokensToAdd)
      lastUpdate := now }

/-- Embeds `RateLimiter.acquire(tokens)`, called at wall-clock time `now`:
refill, then consume `n` tokens if available. -/
def acquire (now n : ℚ) (rl : RateLimiter) : RateLimiter × Bool :=
  let rl := refillTokens now rl
  if n ≤ rl.tokens then ({ rl with tokens := rl.tokens - n }, true)
  else (rl, false)

/-- One rate-limiter interaction: a bare lazy refill or an `acquire(n)`
attempt, each at the wall-clock time it happens. -/
inductive RLOp where
  | refill (now : ℚ)
  | acquire (now : ℚ) (n : ℚ)
  deriving DecidableEq

def RLOp.time : RLOp → ℚ
  | .refill now => now
  | .acquire now _ => now

/-- Apply one operation. -/
def rlStep (rl : RateLimiter) : RLOp → RateLimiter
  | .refill now => refillTokens now rl
  | .acquire now n => (acquire now n rl).1

/-- Run a sequence of operations. -/
def runRL (rl : RateLimiter) (ops : List RLOp) : RateLimiter :=
  ops.foldl rlStep rl

/-- A well-formed interaction sequence starting no earlier than time `t`:
timestamps are non-decreasing (`time.time()` moving forward) and each
`acquire` requests a non-negative token count (callers pass `1`). -/
def ValidSeq : ℚ → List RLOp → Prop
  | _, [] => True
  | t, op :: rest =>
    t ≤ op.time ∧
      (match op with
       | .refill _ => True
       | .acquire _ n => 0 ≤ n) ∧
      ValidSeq op.time rest

/-! ## CryptoCache — `src/utils/cache.py`, class `CryptoCache`

The backing `cachetools.TTLCache` is modelled as a list of entries in
least-recently-used-first order, each carrying its expiry time; a fresh
insertion into a full store drops the least-recently-used live entry. -/

structure TTLEntry where
  key : String
  value : String
  expiresAt : ℚ
  deriving DecidableEq

/-- Entries still alive at `now` (TTL expiry). -/
def purgeExpired (now : ℚ) (store : List TTLEntry) : List TTLEntry :=
  store.filter fun e => now < e.expiresAt

/-- Embeds `TTLCache.get`: a live entry is returned and marked most recently
used; a missing or expired key is a miss. -/
def storeGet (now : ℚ) (key : String) (store : List TTLEntry) :
    Option String × List TTLEntry :=
  match store.find? (fun e => e.key = key) with
  | some e =>
    if now < e.expiresAt then
      (some e.value, (store.filter fun e' => e'.key ≠ key) ++ [e])
    else (none, store)
  | none => (none, store)

/-- Embeds `TTLCache.__setitem__`: expired entries are expelled, an existing key
is replaced, and a fresh key inserted into a full store first evicts the
least-recently-used entry. -/
def storeSet (now ttl : ℚ) (maxSize : Nat) (key value : String)
    (store : List TTLEntry) : List TTLEntry :=
  let live := purgeExpired now store
  let withoutKey := live.filter fun e => e.key ≠ key
  let afterEvict :=
    if (live.find? (fun e => e.key = key)).isSome then withoutKey
    else if maxSize ≤ withoutKey.length then withoutKey.drop 1
    else withoutKey
  afterEvict ++ [⟨key, value, now + ttl⟩]

structure CryptoCache where
  ttlSeconds : ℚ
  maxSize : Nat
  store : List TTLEntry
  hits : Nat
  misses : Nat
  sets : Nat
  evictions : Nat
  deriving DecidableEq

/-- Embeds `CryptoCache.__init__(ttl_seconds, max_size)`: empty store, all four
counters start at zero. -/
def mkCryptoCache (ttlSeconds : ℚ) (maxSize : Nat) : CryptoCache :=
  ⟨ttlSeconds, maxSize, [], 0, 0, 0, 0⟩

/-- Embeds `CryptoCache.get`: a found value counts a hit, anything else a miss. -/
def cacheGet (now : ℚ) (key : String) (c : CryptoCache) :
    Option String × CryptoCache :=
  match storeGet now key c.store with
  | (some v, store') => (some v, { c with store := store', hits := c.hits + 1 })
  | (none, store') => (none, { c with store := store', misses := c.misses + 1 })

/-- Embeds `CryptoCache.set`: store the value and count a set. -/
def cacheSet (now : ℚ) (key value : String) (c : CryptoCache) : CryptoCache :=
  { c with
      store := storeSet now c.ttlSeconds c.maxSize key value c.store
      sets := c.sets + 1 }

/-- Embeds `CryptoCache.delete`: remove the key if present; counters untouched. -/
def cacheDelete (key : String) (c : CryptoCache) : CryptoCache :=
  { c with store := c.store.filter fun e => e.key ≠ key }

/-- Embeds `CryptoCache.clear`: drop every entry; counters untouched. -/
def cacheClear (c : CryptoCache) : CryptoCache :=
  { c with store := [] }

/-- Embeds `CryptoCache.invalidate_pattern`: delete every key starting with the
given pattern; counters untouched. -/
def cacheInvalidatePattern (pat : String) (c : CryptoCache) : CryptoCache :=
  { c with store := c.store.filter fun e => ¬ pat.isPrefixOf e.key }

/-- The statistics dictionary returned by `CryptoCache.get_stats`. -/
structure CacheStats where
  hits : Nat
  misses : Nat
  sets : Nat
  evictions : Nat
  size : Nat
  maxSize : Nat
  totalRequests : Nat
  deriving DecidableEq

/-- Embeds `CryptoCache.get_stats` (the `hit_rate` percentage, a float, is left
out; every other reported field is here). -/
def getStats (c : CryptoCache) : CacheStats :=
  ⟨c.hits, c.misses, c.sets, c.evictions, c.store.length, c.maxSize,
    c.hits + c.misses⟩

/-- One public cache operation, with the wall-clock time it happens at. -/
inductive CacheOp where
  | get (now : ℚ) (key : String)
  | set (now : ℚ) (key value : String)
  | delete (key : String)
  | clear
  | invalidatePattern (pat : String)
  deriving DecidableEq

def cacheStep (c : CryptoCache) : CacheOp → CryptoCache
  | .get now key => (cacheGet now key c).2
  | .set now key value => cacheSet now key value c
  | .delete key => cacheDelete key c
  | .clear => cacheClear c
  | .invalidatePattern pat => cacheInvalidatePattern pat c

def runCache (c : CryptoCache) (ops : List CacheOp) : CryptoCache :=
  ops.foldl cacheStep c

/-! ## Record decoding — `src/api/models.py`

Pydantic models are embedded as structures with one parser per model;
validation failures are the `ValidationError` exceptions pydantic raises
(message texts abridged).  JSON numbers are rationals. -/

inductive JValue where
  | jNull
  | jBool (b : Bool)
  | jStr (s : String)
  | jNum (q : ℚ)
  | jArr (items : List JValue)
  | jObj (fields : List (String × JValue))

/-- Dictionary field lookup. -/
def getField (fields : List (String × JValue)) (name : String) : Option JValue :=
  (fields.find? fun p => p.1 = name).map Prod.snd

/-- Pydantic `float` validation: accepts any JSON number. -/
def asFloat : JValue → Option ℚ
  | .jNum q => some q
  | _ => none

/-- Pydantic `int` validation: accepts integral JSON numbers. -/
def asInt : JValue → Option Int
  | .jNum q => if q.den = 1 then some q.num else none
  | _ => none

/-- Pydantic `str` validation. -/
def asStr : JValue → Option String
  | .jStr s => some s
  | _ => none

/-- Pydantic `datetime` validation, kept as the ISO string. -/
def asDatetime : JValue → Option String
  | .jStr s => some s
  | _ => none

/-- A required field (`Field(...)`): missing or invalid input raises. -/
def reqField {β : Type} (fields : List (String × JValue)) (name : String)
    (conv : JValue → Option β) : Except String β :=
  match getField fields name with
  | none => .error (name ++ ": Field required")
  | some v =>
    match conv v with
    | none => .error (name ++ ": Input is not valid")
    | some b => .ok b

/-- An `Optional[...] = None` field: missing or `null` is `None`, a present
non-null value must validate. -/
def optField {β : Type} (fields : List (String × JValue)) (name : String)
    (conv : JValue → Option β) : Except String (Option β) :=
  match getField fields name with
  | none => .ok none
  | some .jNull => .ok none
  | some v =>
    match conv v with
    | none => .error (name ++ ": Input is not valid")
    | some b => .ok (some b)

/-- Model `Quote` (models.py): `price` is the only required field. -/
structure Quote where
  price : ℚ
  volume_24h : Option ℚ
  volume_change_24h : Option ℚ
  percent_change_1h : Option ℚ
  percent_change_24h : Option ℚ
  percent_change_7d : Option ℚ
  percent_change_30d : Option ℚ
  market_cap : Option ℚ
  market_cap_dominance : Option ℚ
  fully_diluted_market_cap : Option ℚ
  last_updated : Option String
  deriving DecidableEq

def parseQuote (v : JValue) : Except String Quote :=
  match v with
  | .jObj fs => do
    let price ← reqField fs "price" asFloat
    let volume24h ← optField fs "volume_24h" asFloat
    let volumeChange24h ← optField fs "volume_change_24h" asFloat
    let pc1h ← optField fs "percent_change_1h" asFloat
    let pc24h ← optField fs "percent_change_24h" asFloat
    let pc7d ← optField fs "percent_change_7d" asFloat
    let pc30d ← optField fs "percent_change_30d" asFloat
    let marketCap ← optField fs "market_cap" asFloat
    let mcDominance ← optField fs "market_cap_dominance" asFloat
    let fdMarketCap ← optField fs "fully_diluted_market_cap" asFloat
    let lastUpdated ← optField fs "last_updated" asDatetime
    pure ⟨price, volume24h, volumeChange24h, pc1h, pc24h, pc7d, pc30d,
      marketCap, mcDominance, fdMarketCap, lastUpdated⟩
  | _ => .error "quote value: Input should be a valid dictionary"

/-- Model `Platform` (models.py): all five fields required. -/
structure CoinPlatform where
  id : Int
  name : String
  symbol : String
  slug : String
  token_address : String
  deriving DecidableEq

def parsePlatform (v : JValue) : Except String CoinPlatform :=
  match v with
  | .jObj fs => do
    let id ← reqField fs "id" asInt
    let name ← reqField fs "name" asStr
    let symbol ← reqField fs "symbol" asStr
    let slug ← reqField fs "slug" asStr
    let tokenAddress ← reqField fs "token_address" asStr
    pure ⟨id, name, symbol, slug, tokenAddress⟩
  | _ => .error "platform: Input should be a valid dictionary"

/-- Pydantic `List[str]` validation. -/
def parseStrList (v : JValue) : Except String (List String) :=
  match v with
  | .jArr items =>
    items.mapM fun it =>
      match asStr it with
      | some s => Except.ok s
      | none => Except.error "tags: Input is not a valid string"
  | _ => .error "tags: Input should be a valid list"

/-- Pydantic `Dict[str, Quote]` validation. -/
def parseQuoteDict (v : JValue) : Except String (List (String × Quote)) :=
  match v with
  | .jObj fs => fs.mapM fun p => (parseQuote p.2).map fun q => (p.1, q)
  | _ => .error "quote: Input should be a valid dictionary"

/-- Model `Cryptocurrency` (models.py): `id`, `name`, `symbol`, `slug` required;
`tags` and `quote` default to empty collections when missing. -/
structure Cryptocurrency where
  id : Int
  name : String
  symbol : String
  slug : String
  cmc_rank : Option Int
  num_market_pairs : Option Int
  circulating_supply : Option ℚ
  total_supply : Option ℚ
  max_supply : Option ℚ
  last_updated : Option String
  date_added : Option String
  tags : Option (List String)
  platform : Option CoinPlatform
  quote : Option (List (String × Quote))
  deriving DecidableEq

/-- A field with `default_factory` (missing gives the empty collection,
`null` gives `None`, anything else must validate). -/
def factoryField {β : Type} (fields : List (String × JValue)) (name : String)
    (dflt : β) (conv : JValue → Except String β) : Except String (Option β) :=
  match getField fields name with
  | none => .ok (some dflt)
  | some .jNull => .ok none
  | some v => (conv v).map some

/-- A pydantic `Optional` submodel field. -/
def modelOptField {β : Type} (fields : List (String × JValue)) (name : String)
    (conv : JValue → Except String β) : Except String (Option β) :=
  match getField fields name with
  | none => .ok none
  | some .jNull => .ok none
  | some v => (conv v).map some

/-- Embeds `parse_cryptocurrency_data(data)` = `Cryptocurrency(**data)`. -/
def parseCryptocurrencyData (v : JValue) : Except String Cryptocurrency :=
  match v with
  | .jObj fs => do
    let id ← reqField fs "id" asInt
    let name ← reqField fs "name" asStr
    let symbol ← reqField fs "symbol" asStr
    let slug ← reqField fs "slug" asStr
    let cmcRank ← optField fs "cmc_rank" asInt
    let numMarketPairs ← optField fs "num_market_pairs" asInt
    let circulatingSupply ← optField fs "circulating_supply" asFloat
    let totalSupply ← optField fs "total_supply" asFloat
    let maxSupply ← optField fs "max_supply" asFloat
    let lastUpdated ← optField fs "last_updated" asDatetime
    let dateAdded ← optField fs "date_added" asDatetime
    let tags ← factoryField fs "tags" [] parseStrList
    let platform ← modelOptField fs "platform" parsePlatform
    let quote ← factoryField fs "quote" [] parseQuoteDict
    pure ⟨id, name, symbol, slug, cmcRank, numMarketPairs, circulatingSupply,
      totalSupply, maxSupply, lastUpdated, dateAdded, tags, platform, quote⟩
  | _ => .error "Cryptocurrency(**data): argument must be a mapping"

/-- What `get_cryptocurrency_quotes` hands its caller: the decoded symbol
map, a raised `TypedError` from `_make_request`, or an uncaught raw Python
exception escaping the decode loop (there is no `try` around it). -/
inductive QuotesResult where
  | ok (result : List (String × Cryptocurrency))
  | raised (e : PyExc)
  | uncaughtException (msg : String)
  deriving DecidableEq

/-- Embeds `result[crypto.symbol] = crypto`: dictionary insert, preserving
insertion order, overwriting an existing symbol in place. -/
def assocSet (k : String) (v : Cryptocurrency)
    (m : List (String × Cryptocurrency)) : List (String × Cryptocurrency) :=
  if (m.find? fun p => p.1 = k).isSome then
    m.map fun p => if p.1 = k then (k, v) else p
  else m ++ [(k, v)]

/-- The `for key, value in data.items()` loop of
`get_cryptocurrency_quotes`: the first pydantic `ValidationError`
propagates out uncaught. -/
def decodeQuotesLoop (items : List (String × JValue))
    (acc : List (String × Cryptocurrency)) : QuotesResult :=
  match items with
  | [] => .ok acc
  | (_, value) :: rest =>
    match parseCryptocurrencyData value with
    | .error msg => .uncaughtException ("ValidationError: " ++ msg)
    | .ok crypto => decodeQuotesLoop rest (assocSet crypto.symbol crypto acc)

/-- The decode stage of `get_cryptocurrency_quotes` applied to the JSON
body of a 200 response: `response.get("data", {})`, then the parse loop. -/
def decodeQuotesResponse (resp : JValue) : QuotesResult :=
  let data :=
    match resp with
    | .jObj fs => (getField fs "data").getD (.jObj [])
    | _ => .jObj []
  match data with
  | .jObj items => decodeQuotesLoop items []
  | _ => .uncaughtException "AttributeError: items"

/-- Embeds `get_cryptocurrency_quotes` after parameter building: run
`_make_request` and decode the returned body. -/
def getCryptocurrencyQuotes (maxRetries : Nat)
    (attempts : Nat → Outcome JValue) : QuotesResult :=
  match (makeRequest maxRetries attempts).result with
  | .raised e => .raised e
  | .ok data => decodeQuotesResponse data

/-! ## Executor lemmas -/

/-- Transient transport failures: timeout or connection failure. -/
def isTransient {α : Type} : Outcome α → Bool
  | .timeout _ => true
  | .connectError _ => true
  | .response _ _ _ => false

/-- The typed error a transient outcome is recorded as. -/
def transientExc {α : Type} : Outcome α → PyExc
  | .timeout m => .apiTimeoutError ("Request timeout: " ++ m)
  | .connectError m => .apiConnectionError ("Connection failed: " ++ m)
  | .response _ _ _ => .apiError ""

theorem attemptStep_transient {α : Type} (o : Outcome α)
    (h : isTransient o = true) : attemptStep o = .record (transientExc o) := by
  cases o with
  | response s d m => simp [isTransient] at h
  | timeout m => rfl
  | connectError m => rfl

/-- A run in which every admissible attempt ends in a recorded (retried)
failure performs all `maxRetries + 1` attempts, sleeps `2 ^ r` seconds
after attempt `r - 1` for `r = 1, …, maxRetries`, and surfaces the error
recorded by the last attempt. -/
theorem requestLoop_record_spec {α : Type} (maxRetries : Nat)
    (attempts : Nat → Outcome α) (exc : Nat → PyExc)
    (h : ∀ i, i ≤ maxRetries → attemptStep (attempts i) = .record (exc i)) :
    ∀ fuel retries last, retries + fuel = maxRetries + 1 →
      (fuel = 0 → last = some (exc maxRetries)) →
      (requestLoop maxRetries attempts fuel retries last).result =
          .raised (exc maxRetries) ∧
        (requestLoop maxRetries attempts fuel retries last).attemptsMade =
          maxRetries + 1 ∧
        sleepsOf (requestLoop maxRetries attempts fuel retries last).events =
          (List.range' (retries + 1) (maxRetries - retries)).map (2 ^ ·) := by
  intro fuel
  induction fuel with
  | zero =>
    intro retries last hsum hlast
    rw [hlast rfl]
    have hr : retries = maxRetries + 1 := by omega
    have hn : maxRetries - retries = 0 := by omega
    simp [requestLoop, sleepsOf, hr, hn]
  | succ fuel ih =>
    intro retries last hsum _
    have hr : retries ≤ maxRetries := by omega
    have hstep := h retries hr
    obtain ⟨ih1, ih2, ih3⟩ := ih (retries + 1) (some (exc retries)) (by omega)
      (fun hf => by
        have hrm : retries = maxRetries := by omega
        rw [hrm])
    refine ⟨?_, ?_, ?_⟩
    · simpa [requestLoop, hstep] using ih1
    · simpa [requestLoop, hstep] using ih2
    · simp only [sleepsOf] at ih3 ⊢
      rcases Nat.lt_or_ge retries maxRetries with hlt | hge
      · have hif : retries + 1 ≤ maxRetries := hlt
        have hn : maxRetries - retries = (maxRetries - (retries + 1)) + 1 := by
          omega
        have hev : (requestLoop maxRetries attempts (fuel + 1) retries last).events =
            .attempt retries :: .backoffSleep (2 ^ (retries + 1)) ::
              (requestLoop maxRetries attempts fuel (retries + 1)
                (some (exc retries))).events := by
          simp [requestLoop, hstep, hif]
        rw [hev, hn, List.range'_succ, List.map_cons, List.filterMap_cons,
          List.filterMap_cons]
        exact congrArg (List.cons _) ih3
      · have hif : ¬ retries + 1 ≤ maxRetries := by omega
        have hn : maxRetries - retries = 0 := by omega
        have hn' : maxRetries - (retries + 1) = 0 := by omega
        rw [hn', List.range'] at ih3
        have hev : (requestLoop maxRetries attempts (fuel + 1) retries last).events =
            .attempt retries ::
              (requestLoop maxRetries attempts fuel (retries + 1)
                (some (exc retries))).events := by
          simp [requestLoop, hstep, hif]
        rw [hev, hn, List.range', List.filterMap_cons]
        exact ih3

/-- The retry loop itself never touches the rate limiter. -/
theorem requestLoop_acquireCount {α : Type} (maxRetries : Nat)
    (attempts : Nat → Outcome α) :
    ∀ fuel retries last,
      acquireCount (requestLoop maxRetries attempts fuel retries last).events = 0 := by
  intro fuel
  induction fuel with
  | zero => intro retries last; simp [requestLoop, acquireCount]
  | succ fuel ih =>
    intro retries last
    rcases hstep : attemptStep (attempts retries) with d | e | e
    · simp [requestLoop, hstep, acquireCount]
    · simp [requestLoop, hstep, acquireCount]
    · have ih' := ih (retries + 1) (some e)
      simp only [acquireCount, List.countP_eq_zero] at ih' ⊢
      intro a ha
      simp only [requestLoop, hstep, List.mem_cons, List.mem_append] at ha
      rcases ha with rfl | ha | ha
      · simp
      · split at ha <;> simp only [List.mem_singleton, List.not_mem_nil] at ha
        subst ha; simp
      · exact ih' a ha

/-! ## Claims about the executor and the classifier -/

/-- C1 counterexample: with the default `maxRetries = 3`, a request whose
every attempt returns HTTP 400 is attempted four times, not once, and the
surfaced error is a wrapped generic `APIError`, not the typed
`InvalidParameterError` unchanged. -/
theorem c1_counterexample :
    (makeRequest 3 (fun _ => Outcome.response (α := String) 400 "" "bad")).attemptsMade = 4 ∧
      (makeRequest 3 (fun _ => Outcome.response (α := String) 400 "" "bad")).attemptsMade ≠ 1 ∧
      (makeRequest 3 (fun _ => Outcome.response (α := String) 400 "" "bad")).result =
        .raised (.apiError "Unexpected error: bad") := by
  decide

/-- C1 (amended): a request whose HTTP outcome classifies as
InvalidParameter (400) or NotFound (404) is retried like any generic
failure — `maxRetries + 1` attempts in total when every attempt returns
that status — and the surfaced error is the wrapped generic
`APIError("Unexpected error: <message>")`, not the typed error unchanged;
the classifier itself does map 400/404 to the typed errors. -/
theorem c1_terminal_statuses_are_retried {α : Type} (maxRetries : Nat)
    (attempts : Nat → Outcome α) (s : Nat) (data : Nat → α) (msg : Nat → String)
    (hs : s = 400 ∨ s = 404)
    (h : ∀ i, i ≤ maxRetries → attempts i = .response s (data i) (msg i)) :
    handleApiError s (msg 0) =
        (if s = 400 then .invalidParameterError "request" (msg 0)
         else .cryptocurrencyNotFoundError (msg 0)) ∧
      (makeRequest maxRetries attempts).attemptsMade = maxRetries + 1 ∧
      (makeRequest maxRetries attempts).result =
        .raised (.apiError ("Unexpected error: " ++ msg maxRetries)) := by
  have hstep : ∀ i, i ≤ maxRetries →
      attemptStep (attempts i) = .record (.apiError ("Unexpected error: " ++ msg i)) := by
    intro i hi
    rw [h i hi]
    rcases hs with rfl | rfl <;>
      simp [attemptStep, handleApiError, PyExc.message]
  obtain ⟨h1, h2, h3⟩ := requestLoop_record_spec maxRetries attempts
    (fun i => .apiError ("Unexpected error: " ++ msg i)) hstep
    (maxRetries + 1) 0 none (by omega) (by omega)
  refine ⟨?_, ?_, ?_⟩
  · rcases hs with rfl | rfl <;> simp [handleApiError]
  · simpa [makeRequest] using h2
  · simpa [makeRequest] using h1

/-- C1 witness: the amended claim at `maxRetries = 2`, status 404. -/
theorem c1_witness :
    handleApiError 404 "gone" =
        (if (404 : Nat) = 400 then .invalidParameterError "request" "gone"
         else .cryptocurrencyNotFoundError "gone") ∧
      (makeRequest 2 (fun _ => Outcome.response (α := String) 404 "x" "gone")).attemptsMade = 3 ∧
      (makeRequest 2 (fun _ => Outcome.response (α := String) 404 "x" "gone")).result =
        .raised (.apiError ("Unexpected error: " ++ "gone")) :=
  c1_terminal_statuses_are_retried 2 (fun _ => Outcome.response 404 "x" "gone")
    404 (fun _ => "x") (fun _ => "gone") (Or.inr rfl) (fun _ _ => rfl)

/-- C2: a request whose every attempt fails transiently (timeout or
connection failure) performs exactly `maxRetries + 1` HTTP attempts, sleeps
`2, 4, …, 2 ^ maxRetries` seconds between consecutive attempts, and raises
the typed error recorded by the last attempt. -/
theorem c2_transient_exhausts_retries {α : Type} (maxRetries : Nat)
    (attempts : Nat → Outcome α)
    (h : ∀ i, i ≤ maxRetries → isTransient (attempts i) = true) :
    (makeRequest maxRetries attempts).attemptsMade = maxRetries + 1 ∧
      sleepsOf (makeRequest maxRetries attempts).events =
        (List.range' 1 maxRetries).map (2 ^ ·) ∧
      (makeRequest maxRetries attempts).result =
        .raised (transientExc (attempts maxRetries)) := by
  obtain ⟨h1, h2, h3⟩ := requestLoop_record_spec maxRetries attempts
    (fun i => transientExc (attempts i))
    (fun i hi => attemptStep_transient (attempts i) (h i hi))
    (maxRetries + 1) 0 none (by omega) (by omega)
  refine ⟨?_, ?_, ?_⟩
  · simpa [makeRequest] using h2
  · simpa [makeRequest, sleepsOf] using h3
  · simpa [makeRequest] using h1

/-- C2 witness: default `maxRetries = 3`, every attempt timing out: four
attempts, sleeps 2, 4, 8, and the last timeout error surfaced. -/
theorem c2_witness :
    (makeRequest 3 (fun _ => Outcome.timeout (α := String) "t")).attemptsMade = 4 ∧
      sleepsOf (makeRequest 3 (fun _ => Outcome.timeout (α := String) "t")).events =
        (List.range' 1 3).map (2 ^ ·) ∧
      (makeRequest 3 (fun _ => Outcome.timeout (α := String) "t")).result =
        .raised (.apiTimeoutError "Request timeout: t") :=
  c2_transient_exhausts_retries 3 (fun _ => Outcome.timeout "t") (fun _ _ => rfl)

/-- C4 counterexample: with `maxRetries = 1` and both attempts timing out,
the trace holds two physical attempts but only one rate-limiter
acquisition, so the retry attempt was not preceded by its own
acquisition. -/
theorem c4_counterexample :
    attemptCount (makeRequest 1 (fun _ => Outcome.timeout (α := String) "t")).events = 2 ∧
      acquireCount (makeRequest 1 (fun _ => Outcome.timeout (α := String) "t")).events = 1 := by
  decide

/-- C4 (amended): the rate limiter is consulted exactly once per logical
call — as the very first event, before the first attempt — and retries of
the same call issue further attempts without re-acquiring. -/
theorem c4_single_acquisition {α : Type} (maxRetries : Nat)
    (attempts : Nat → Outcome α) :
    acquireCount (makeRequest maxRetries attempts).events = 1 ∧
      (makeRequest maxRetries attempts).events.head? = some .acquireToken := by
  constructor
  · have h := requestLoop_acquireCount maxRetries attempts (maxRetries + 1) 0 none
    simp only [acquireCount, List.countP_eq_zero] at h
    simp [makeRequest, acquireCount, List.countP_cons, List.countP_eq_zero.mpr h]
  · simp [makeRequest]

/-- C6 counterexample: a response with the 2xx status 201 does not return
immediately — it is classified as a generic error, retried, and the call
fails after both attempts at `maxRetries = 1`. -/
theorem c6_counterexample :
    (makeRequest 1 (fun _ => Outcome.response (α := String) 201 "body" "m")).attemptsMade = 2 ∧
      (makeRequest 1 (fun _ => Outcome.response (α := String) 201 "body" "m")).result =
        .raised (.apiError "Unexpected error: API error (status 201): m") := by
  decide

/-- C6 (amended): only a response with status exactly 200 terminates the
state machine by returning its decoded body after one attempt; any other
2xx status is classified as a generic error and retried like a transient
failure. -/
theorem c6_only_200_succeeds {α : Type} (maxRetries : Nat)
    (attempts : Nat → Outcome α) :
    (∀ d m, attempts 0 = .response 200 d m →
        (makeRequest maxRetries attempts).result = .ok d ∧
          (makeRequest maxRetries attempts).attemptsMade = 1) ∧
      (∀ s (data : Nat → α) (msg : Nat → String),
        200 ≤ s → s < 300 → s ≠ 200 →
        (∀ i, i ≤ maxRetries → attempts i = .response s (data i) (msg i)) →
        (makeRequest maxRetries attempts).attemptsMade = maxRetries + 1 ∧
          (makeRequest maxRetries attempts).result =
            .raised (.apiError ("Unexpected error: " ++
              ("API error (status " ++ toString s ++ "): " ++ msg maxRetries)))) := by
  constructor
  · intro d m h0
    constructor <;> simp [makeRequest, requestLoop, h0, attemptStep]
  · intro s data msg hlo hhi hne h
    have hstep : ∀ i, i ≤ maxRetries →
        attemptStep (attempts i) = .record (.apiError ("Unexpected error: " ++
          ("API error (status " ++ toString s ++ "): " ++ msg i))) := by
      intro i hi
      rw [h i hi]
      have h401 : s ≠ 401 := by omega
      have h429 : s ≠ 429 := by omega
      have h400 : s ≠ 400 := by omega
      have h404 : s ≠ 404 := by omega
      have h500 : ¬ 500 ≤ s := by omega
      simp [attemptStep, handleApiError, hne, h401, h429, h400, h404, h500,
        PyExc.message]
    obtain ⟨h1, h2, h3⟩ := requestLoop_record_spec maxRetries attempts
      (fun i => .apiError ("Unexpected error: " ++
        ("API error (status " ++ toString s ++ "): " ++ msg i))) hstep
      (maxRetries + 1) 0 none (by omega) (by omega)
    exact ⟨by simpa [makeRequest] using h2, by simpa [makeRequest] using h1⟩

/-- C6 witness: the amended claim at `maxRetries = 1`, with a 200 response
succeeding in one attempt and a 204 response exhausting both attempts. -/
theorem c6_witness :
    ((makeRequest 1 (fun _ => Outcome.response (α := String) 200 "body" "m")).result =
        .ok "body" ∧
      (makeRequest 1 (fun _ => Outcome.response (α := String) 200 "body" "m")).attemptsMade = 1) ∧
      ((makeRequest 1 (fun _ => Outcome.response (α := String) 204 "body" "m")).attemptsMade = 2 ∧
        (makeRequest 1 (fun _ => Outcome.response (α := String) 204 "body" "m")).result =
          .raised (.apiError ("Unexpected error: " ++
            ("API error (status " ++ toString (204 : Nat) ++ "): " ++ "m")))) :=
  ⟨(c6_only_200_succeeds 1 (fun _ => Outcome.response 200 "body" "m")).1 "body" "m" rfl,
    (c6_only_200_succeeds 1 (fun _ => Outcome.response 204 "body" "m")).2 204
      (fun _ => "body") (fun _ => "m") (by omega) (by omega) (by omega)
      (fun _ _ => rfl)⟩

/-- C7: a first attempt classified Authentication (401) or RateLimited
(429) is raised to the caller immediately after exactly one attempt, for
every `maxRetries`. -/
theorem c7_auth_ratelimit_no_retry {α : Type} (maxRetries : Nat)
    (attempts : Nat → Outcome α) (s : Nat) (d : α) (m : String)
    (hs : s = 401 ∨ s = 429)
    (h0 : attempts 0 = .response s d m) :
    (makeRequest maxRetries attempts).attemptsMade = 1 ∧
      (makeRequest maxRetries attempts).result =
        .raised (if s = 401 then .authenticationError m else .rateLimitError m) := by
  rcases hs with rfl | rfl <;>
    constructor <;>
    simp [makeRequest, requestLoop, h0, attemptStep, handleApiError]

/-- C7 witness: a 429 first attempt at `maxRetries = 3`. -/
theorem c7_witness :
    (makeRequest 3 (fun _ => Outcome.response (α := String) 429 "x" "slow down")).attemptsMade = 1 ∧
      (makeRequest 3 (fun _ => Outcome.response (α := String) 429 "x" "slow down")).result =
        .raised (if (429 : Nat) = 401 then .authenticationError "slow down"
                 else .rateLimitError "slow down") :=
  c7_auth_ratelimit_no_retry 3 (fun _ => Outcome.response 429 "x" "slow down")
    429 "x" "slow down" (Or.inr rfl) rfl

/-- C8: the classifier is a deterministic pure mapping — 401 to
Authentication, 429 to RateLimited, 400 to InvalidParameter, 404 to
NotFound, ≥ 500 to Connection, any other non-2xx status to a generic error
carrying the code — and transport-level connect failures and timeouts map
directly to Connection and Timeout without inspecting a body. -/
theorem c8_classifier_mapping (s : Nat) (m : String) :
    (s = 401 → handleApiError s m = .authenticationError m) ∧
      (s = 429 → handleApiError s m = .rateLimitError m) ∧
      (s = 400 → handleApiError s m = .invalidParameterError "request" m) ∧
      (s = 404 → handleApiError s m = .cryptocurrencyNotFoundError m) ∧
      (500 ≤ s → handleApiError s m = .apiConnectionError ("Server error: " ++ m)) ∧
      (¬ (200 ≤ s ∧ s < 300) → s ≠ 401 → s ≠ 429 → s ≠ 400 → s ≠ 404 → s < 500 →
        handleApiError s m =
          .apiError ("API error (status " ++ toString s ++ "): " ++ m)) ∧
      attemptStep (Outcome.timeout (α := Unit) m) =
        .record (.apiTimeoutError ("Request timeout: " ++ m)) ∧
      attemptStep (Outcome.connectError (α := Unit) m) =
        .record (.apiConnectionError ("Connection failed: " ++ m)) := by
  refine ⟨?_, ?_, ?_, ?_, ?_, ?_, rfl, rfl⟩ <;>
    · intros
      subst_vars
      first
        | rfl
        | (unfold handleApiError; split_ifs <;> first | rfl | omega)

/-- C8 witness: the mapping at concrete inputs 503 and 418. -/
theorem c8_witness :
    handleApiError 503 "oops" = .apiConnectionError ("Server error: " ++ "oops") ∧
      handleApiError 418 "teapot" =
        .apiError ("API error (status " ++ toString (418 : Nat) ++ "): " ++ "teapot") :=
  ⟨(c8_classifier_mapping 503 "oops").2.2.2.2.1 (by omega),
    (c8_classifier_mapping 418 "teapot").2.2.2.2.2.1 (by omega) (by omega)
      (by omega) (by omega) (by omega) (by omega)⟩

/-! ## Claims about the cache key -/

theorem charListLt_irrefl (l : List Char) : charListLt l l = false := by
  induction l with
  | nil => rfl
  | cons a as ih =>
    rw [charListLt, if_neg (lt_irrefl a), if_neg (lt_irrefl a)]
    exact ih

theorem charListLt_asymm :
    ∀ l₁ l₂ : List Char, charListLt l₁ l₂ = true → charListLt l₂ l₁ = false := by
  intro l₁
  induction l₁ with
  | nil =>
    intro l₂ h
    cases l₂ with
    | nil => exact absurd h (by simp [charListLt])
    | cons b bs => rfl
  | cons a as ih =>
    intro l₂ h
    cases l₂ with
    | nil => exact absurd h (by simp [charListLt])
    | cons b bs =>
      rw [charListLt] at h ⊢
      by_cases hab : a < b
      · rw [if_neg (lt_asymm hab), if_pos hab]
      · rw [if_neg hab] at h
        by_cases hba : b < a
        · rw [if_pos hba] at h
          exact absurd h (by simp)
        · rw [if_neg hba] at h
          rw [if_neg hba, if_neg hab]
          exact ih bs h

theorem charListLt_eq_of_not :
    ∀ l₁ l₂ : List Char, charListLt l₁ l₂ = false → charListLt l₂ l₁ = false →
      l₁ = l₂ := by
  intro l₁
  induction l₁ with
  | nil =>
    intro l₂ h1 _
    cases l₂ with
    | nil => rfl
    | cons b bs => exact absurd h1 (by simp [charListLt])
  | cons a as ih =>
    intro l₂ h1 h2
    cases l₂ with
    | nil => exact absurd h2 (by simp [charListLt])
    | cons b bs =>
      rw [charListLt] at h1 h2
      by_cases hab : a < b
      · rw [if_pos hab] at h1
        exact absurd h1 (by simp)
      · by_cases hba : b < a
        · rw [if_pos hba] at h2
          exact absurd h2 (by simp)
        · rw [if_neg hab, if_neg hba] at h1
          rw [if_neg hba, if_neg hab] at h2
          have hch : a = b := le_antisymm (le_of_not_lt hba) (le_of_not_lt hab)
          rw [hch, ih bs h1 h2]

theorem charListLt_trans :
    ∀ l₁ l₂ l₃ : List Char, charListLt l₁ l₂ = true → charListLt l₂ l₃ = true →
      charListLt l₁ l₃ = true := by
  intro l₁
  induction l₁ with
  | nil =>
    intro l₂ l₃ h12 h23
    cases l₃ with
    | nil =>
      cases l₂ with
      | nil => exact h12
      | cons b bs => exact absurd h23 (by simp [charListLt])
    | cons c cs => rfl
  | cons a as ih =>
    intro l₂ l₃ h12 h23
    cases l₂ with
    | nil => exact absurd h12 (by simp [charListLt])
    | cons b bs =>
      cases l₃ with
      | nil => exact absurd h23 (by simp [charListLt])
      | cons c cs =>
        rw [charListLt] at h12 h23 ⊢
        by_cases hab : a < b
        · by_cases hbc : b < c
          · rw [if_pos (lt_trans hab hbc)]
          · by_cases hcb : c < b
            · rw [if_neg hbc, if_pos hcb] at h23
              exact absurd h23 (by simp)
            · have hbceq : b = c := le_antisymm (le_of_not_lt hcb) (le_of_not_lt hbc)
              rw [if_pos (hbceq ▸ hab)]
        · by_cases hba : b < a
          · rw [if_neg hab, if_pos hba] at h12
            exact absurd h12 (by simp)
          · have habeq : a = b := le_antisymm (le_of_not_lt hba) (le_of_not_lt hab)
            rw [if_neg hab, if_neg hba] at h12
            subst habeq
            by_cases hac : a < c
            · rw [if_pos hac]
            · by_cases hca : c < a
              · rw [if_neg hac, if_pos hca] at h23
                exact absurd h23 (by simp)
              · rw [if_neg hac, if_neg hca] at h23 ⊢
                exact ih bs cs h12 h23

/-- Strict version of `pairKeyLe`: `a.key < b.key` in Python's order. -/
def pairKeyLt (a b : String × ParamValue) : Prop :=
  charListLt a.1.data b.1.data = true

instance : IsAntisymm (String × ParamValue) pairKeyLt :=
  ⟨fun a b h1 h2 => absurd h2 (by
    unfold pairKeyLt at h1 ⊢
    simp [charListLt_asymm _ _ h1])⟩

instance : IsTotal (String × ParamValue) pairKeyLe :=
  ⟨fun a b => by
    unfold pairKeyLe
    rcases h : charListLt b.1.data a.1.data with _ | _
    · exact Or.inl rfl
    · exact Or.inr (charListLt_asymm _ _ h)⟩

instance : IsTrans (String × ParamValue) pairKeyLe :=
  ⟨fun a b c hab hbc => by
    unfold pairKeyLe at hab hbc ⊢
    rcases hca : charListLt c.1.data a.1.data with _ | _
    · rfl
    · exfalso
      rcases hcb : charListLt a.1.data b.1.data with _ | _
      · have heq := charListLt_eq_of_not _ _ hcb hab
        rw [heq] at hca
        exact absurd hca (by simp [hbc])
      · exact absurd (charListLt_trans _ _ _ hca hcb) (by simp [hbc])⟩

/-- A run sorted under `pairKeyLe` whose keys are distinct is sorted under
the strict order. -/
theorem sorted_pairKeyLt_of_sorted {l : List (String × ParamValue)}
    (hs : l.Sorted pairKeyLe) (hn : (l.map Prod.fst).Nodup) :
    l.Sorted pairKeyLt := by
  have hne : l.Pairwise fun a b => a.1 ≠ b.1 := List.pairwise_map.mp hn
  refine (List.Pairwise.and hs hne).imp ?_
  rintro a b ⟨hle, hnekey⟩
  unfold pairKeyLe at hle
  unfold pairKeyLt
  rcases hab : charListLt a.1.data b.1.data with _ | _
  · exfalso
    apply hnekey
    have hdata := charListLt_eq_of_not _ _ hab hle
    rcases ha1 : a.1 with ⟨da⟩
    rcases hb1 : b.1 with ⟨db⟩
    rw [ha1, hb1] at hdata
    exact congrArg String.mk (by simpa using hdata)
  · rfl

/-- C3 counterexample: the parameter mappings `{a: 1}` and
`{a: 1, b: None}` are set-equal after dropping absent (`None`) values, yet
`_generate_key` produces different keys, because `None`-valued parameters
are hashed rather than dropped. -/
theorem c3_counterexample :
    sanitizeParameters [("a", ParamValue.pInt 1)] =
        sanitizeParameters [("a", ParamValue.pInt 1), ("b", ParamValue.pNone)] ∧
      generateKey "op" [("a", ParamValue.pInt 1)] ≠
        generateKey "op" [("a", ParamValue.pInt 1), ("b", ParamValue.pNone)] := by
  decide

/-- C3 (amended): parameter ordering never affects the cache key — for any
two keyword-argument lists with the same distinct names that are
permutations of each other, `_generate_key` produces identical keys — but
absent (`None`) parameter values are not dropped before hashing, so an
omitted optional parameter and an explicitly-`None` one do not collide. -/
theorem c3_key_order_independent (pfx : String)
    (k1 k2 : List (String × ParamValue)) (hperm : k1.Perm k2)
    (hnodup : (k1.map Prod.fst).Nodup) :
    generateKey pfx k1 = generateKey pfx k2 := by
  unfold generateKey
  suffices h : sortPairs k1 = sortPairs k2 by rw [h]
  have hnodup2 : (k2.map Prod.fst).Nodup := (hperm.map Prod.fst).nodup_iff.mp hnodup
  have hp1 : (sortPairs k1).Perm k1 := List.perm_insertionSort pairKeyLe k1
  have hp2 : (sortPairs k2).Perm k2 := List.perm_insertionSort pairKeyLe k2
  apply List.eq_of_perm_of_sorted (r := pairKeyLt)
  · exact hp1.trans (hperm.trans hp2.symm)
  · exact sorted_pairKeyLt_of_sorted (List.sorted_insertionSort pairKeyLe k1)
      (((hp1.map Prod.fst).nodup_iff).mpr hnodup)
  · exact sorted_pairKeyLt_of_sorted (List.sorted_insertionSort pairKeyLe k2)
      (((hp2.map Prod.fst).nodup_iff).mpr hnodup2)

/-- C3 witness: the repository's own key test — `symbol`/`convert` given in
either order produce the same key. -/
theorem c3_witness :
    ([("symbol", ParamValue.pStr "BTC"), ("convert", ParamValue.pStr "USD")].Perm
        [("convert", ParamValue.pStr "USD"), ("symbol", ParamValue.pStr "BTC")]) ∧
      generateKey "test" [("symbol", ParamValue.pStr "BTC"), ("convert", ParamValue.pStr "USD")] =
        generateKey "test" [("convert", ParamValue.pStr "USD"), ("symbol", ParamValue.pStr "BTC")] :=
  ⟨by decide,
    c3_key_order_independent "test"
      [("symbol", ParamValue.pStr "BTC"), ("convert", ParamValue.pStr "USD")]
      [("convert", ParamValue.pStr "USD"), ("symbol", ParamValue.pStr "BTC")]
      (by decide) (by decide)⟩

/-! ## Claims about response decoding -/

theorem attemptStep_raiseNow_cases {α : Type} (o : Outcome α) (e : PyExc)
    (h : attemptStep o = .raiseNow e) :
    (∃ m, e = .authenticationError m) ∨ ∃ m, e = .rateLimitError m := by
  cases o with
  | response s d m =>
    simp only [attemptStep] at h
    by_cases hs : s = 200
    · simp [hs] at h
    · rw [if_neg hs] at h
      generalize hcl : handleApiError s m = pe at h
      cases pe with
      | authenticationError m' => simp at h; exact Or.inl ⟨m', h.symm⟩
      | rateLimitError m' => simp at h; exact Or.inr ⟨m', h.symm⟩
      | apiConnectionError m' => simp at h
      | apiTimeoutError m' => simp at h
      | invalidResponseError m' => simp at h
      | invalidParameterError p m' => simp at h
      | cryptocurrencyNotFoundError m' => simp at h
      | apiError m' => simp at h
  | timeout m => simp [attemptStep] at h
  | connectError m => simp [attemptStep] at h

theorem attemptStep_record_shape {α : Type} (o : Outcome α) (e : PyExc)
    (h : attemptStep o = .record e) : ∀ m, e ≠ .invalidResponseError m := by
  intro m
  cases o with
  | response s d m' =>
    simp only [attemptStep] at h
    by_cases hs : s = 200
    · simp [hs] at h
    · rw [if_neg hs] at h
      generalize hcl : handleApiError s m' = pe at h
      cases pe <;> simp at h <;> simp [← h]
  | timeout m' =>
    simp only [attemptStep] at h
    simp at h
    simp [← h]
  | connectError m' =>
    simp only [attemptStep] at h
    simp at h
    simp [← h]

/-- The call `_make_request` never raises `InvalidResponseError`: no code path
constructs it. -/
theorem requestLoop_no_invalidResponse {α : Type} (maxRetries : Nat)
    (attempts : Nat → Outcome α) :
    ∀ fuel retries last, (∀ m, last ≠ some (.invalidResponseError m)) →
      ∀ m, (requestLoop maxRetries attempts fuel retries last).result ≠
        .raised (.invalidResponseError m) := by
  intro fuel
  induction fuel with
  | zero =>
    intro retries last hlast m
    cases last with
    | none => simp [requestLoop]
    | some e =>
      simp only [requestLoop, Option.getD_some]
      intro heq
      apply hlast m
      cases heq
      rfl
  | succ fuel ih =>
    intro retries last hlast m
    rcases hstep : attemptStep (attempts retries) with d | e | e
    · simp [requestLoop, hstep]
    · rcases attemptStep_raiseNow_cases _ _ hstep with ⟨m', rfl⟩ | ⟨m', rfl⟩ <;>
        simp [requestLoop, hstep]
    · have hshape := attemptStep_record_shape _ _ hstep
      have := ih (retries + 1) (some e)
        (fun m' heq => hshape m' (by injection heq)) m
      simpa [requestLoop, hstep] using this

/-- The decode loop of `get_cryptocurrency_quotes` either returns a symbol
map or lets a raw exception escape; it never raises a `TypedError`. -/
theorem decodeQuotesLoop_ne_raised :
    ∀ (items : List (String × JValue)) (acc : List (String × Cryptocurrency))
      (e : PyExc), decodeQuotesLoop items acc ≠ .raised e := by
  intro items
  induction items with
  | nil => intro acc e; simp [decodeQuotesLoop]
  | cons p rest ih =>
    intro acc e
    rcases p with ⟨k, v⟩
    simp only [decodeQuotesLoop]
    rcases hp : parseCryptocurrencyData v with msg | crypto
    · simp
    · exact ih _ e

/-- C5 counterexample: a 200 response whose `BTC` quote record lacks the
required `price` field makes `get_cryptocurrency_quotes` let the raw
pydantic `ValidationError` escape — the surfaced failure is not the typed
`InvalidResponseError`. -/
theorem c5_counterexample :
    getCryptocurrencyQuotes 3 (fun _ => Outcome.response 200
        (JValue.jObj [("status", .jObj []),
          ("data", .jObj [("BTC", .jObj [("id", .jNum 1), ("name", .jStr "Bitcoin"),
            ("symbol", .jStr "BTC"), ("slug", .jStr "bitcoin"),
            ("quote", .jObj [("USD", .jObj [("volume_24h", .jNum 5)])])])])]) "") =
      .uncaughtException "ValidationError: price: Field required" := by
  decide

/-- C5 (amended): a 200 response with a malformed payload (a quote record
missing the required `price` field) makes the decode fail with the raw
pydantic `ValidationError`, which escapes `get_cryptocurrency_quotes`
uncaught; the typed `InvalidResponseError` exists in the taxonomy but is
never surfaced on any path of the call. -/
theorem c5_decode_error_escapes_raw (maxRetries : Nat)
    (attempts : Nat → Outcome JValue) :
    (∀ fs, getField fs "price" = none →
        parseQuote (.jObj fs) = .error "price: Field required") ∧
      ∀ m, getCryptocurrencyQuotes maxRetries attempts ≠
        .raised (.invalidResponseError m) := by
  constructor
  · intro fs h
    simp only [parseQuote, reqField, h]
    rfl
  · intro m
    unfold getCryptocurrencyQuotes
    rcases hres : (makeRequest maxRetries attempts).result with data | e
    · rcases hdata : (match data with
        | JValue.jObj fs => (getField fs "data").getD (.jObj [])
        | _ => JValue.jObj []) with _ | b | s | q | items | fields <;>
        simp [decodeQuotesResponse, hdata, decodeQuotesLoop_ne_raised]
    · have := requestLoop_no_invalidResponse maxRetries attempts
        (maxRetries + 1) 0 none (by simp) m
      simp only [makeRequest] at hres
      rw [hres] at this
      simp
      intro heq
      exact absurd (congrArg ReqResult.raised heq) this

/-- C5 witness: the decode-failure fact at a concrete record and the
never-InvalidResponse fact at a concrete call. -/
theorem c5_witness :
    parseQuote (.jObj [("volume_24h", .jNum 5)]) = .error "price: Field required" ∧
      getCryptocurrencyQuotes 1 (fun _ => Outcome.timeout "t") ≠
        .raised (.invalidResponseError "x") :=
  ⟨(c5_decode_error_escapes_raw 1 (fun _ => Outcome.timeout "t")).1
      [("volume_24h", .jNum 5)] rfl,
    (c5_decode_error_escapes_raw 1 (fun _ => Outcome.timeout "t")).2 "x"⟩

/-! ## Claims about the rate limiter and cache statistics -/

/-- The state invariant carried through a rate-limiter run. -/
def rlGood (rpp period : ℚ) (rl : RateLimiter) : Prop :=
  rl.requestsPerPeriod = rpp ∧ rl.periodSeconds = period ∧
    0 ≤ rl.tokens ∧ rl.tokens ≤ rpp

theorem refillTokens_good {rpp period : ℚ} (hrpp : 0 ≤ rpp) (hper : 0 < period)
    {rl : RateLimiter} (hg : rlGood rpp period rl) {now : ℚ}
    (hle : rl.lastUpdate ≤ now) : rlGood rpp period (refillTokens now rl) := by
  obtain ⟨h1, h2, h3, h4⟩ := hg
  refine ⟨h1, h2, ?_, ?_⟩
  · refine le_min (hrpp.trans_eq h1.symm) ?_
    have : 0 ≤ (now - rl.lastUpdate) / rl.periodSeconds * rl.requestsPerPeriod := by
      apply mul_nonneg
      · exact div_nonneg (sub_nonneg.mpr hle) (by rw [h2]; exact hper.le)
      · rw [h1]; exact hrpp
    exact add_nonneg h3 this
  · calc (refillTokens now rl).tokens ≤ rl.requestsPerPeriod := min_le_left _ _
      _ = rpp := h1

theorem acquire_good {rpp period : ℚ} (hrpp : 0 ≤ rpp) (hper : 0 < period)
    {rl : RateLimiter} (hg : rlGood rpp period rl) {now n : ℚ}
    (hle : rl.lastUpdate ≤ now) (hn : 0 ≤ n) :
    rlGood rpp period (acquire now n rl).1 := by
  have hg' := refillTokens_good hrpp hper hg hle
  obtain ⟨h1, h2, h3, h4⟩ := hg'
  by_cases hcase : n ≤ (refillTokens now rl).tokens
  · have hres : (acquire now n rl).1 =
        { refillTokens now rl with tokens := (refillTokens now rl).tokens - n } := by
      simp [acquire, hcase]
    rw [hres]
    exact ⟨h1, h2, sub_nonneg.mpr hcase,
      (sub_le_self _ hn).trans h4⟩
  · have hres : (acquire now n rl).1 = refillTokens now rl := by
      simp [acquire, hcase]
    rw [hres]
    exact ⟨h1, h2, h3, h4⟩

theorem rlStep_lastUpdate (rl : RateLimiter) (op : RLOp) :
    (rlStep rl op).lastUpdate = op.time := by
  cases op with
  | refill now => rfl
  | acquire now n =>
    simp only [rlStep, acquire, RLOp.time]
    split <;> rfl

theorem runRL_good (rpp period : ℚ) (hrpp : 0 ≤ rpp) (hper : 0 < period) :
    ∀ (ops : List RLOp) (rl : RateLimiter), rlGood rpp period rl →
      ValidSeq rl.lastUpdate ops → rlGood rpp period (runRL rl ops) := by
  intro ops
  induction ops with
  | nil => intro rl hg _; exact hg
  | cons op rest ih =>
    intro rl hg hv
    obtain ⟨ht, hop, hrest⟩ := hv
    have hg' : rlGood rpp period (rlStep rl op) := by
      cases op with
      | refill now => exact refillTokens_good hrpp hper hg ht
      | acquire now n => exact acquire_good hrpp hper hg ht hop
    have hv' : ValidSeq (rlStep rl op).lastUpdate rest := by
      rw [rlStep_lastUpdate]; exact hrest
    exact ih (rlStep rl op) hg' hv'

/-- C9: starting from a freshly constructed limiter, any well-formed
sequence of acquire/refill operations keeps the token count within
`[0, capacity]`; every lazy refill sets the count to
`min capacity (tokens + elapsed / period * capacity)`, and a successful
`acquire(n)` subtracts exactly `n` tokens from the refilled count. -/
theorem c9_rate_limiter_invariant (rpp period t0 : ℚ) (ops : List RLOp)
    (hrpp : 0 ≤ rpp) (hper : 0 < period) (hops : ValidSeq t0 ops) :
    (0 ≤ (runRL (mkRateLimiter rpp period t0) ops).tokens ∧
        (runRL (mkRateLimiter rpp period t0) ops).tokens ≤ rpp) ∧
      (∀ (now : ℚ) (rl : RateLimiter), (refillTokens now rl).tokens =
        min rl.requestsPerPeriod
          (rl.tokens + (now - rl.lastUpdate) / rl.periodSeconds * rl.requestsPerPeriod)) ∧
      ∀ (now n : ℚ) (rl : RateLimiter), (acquire now n rl).2 = true →
        (acquire now n rl).1.tokens = (refillTokens now rl).tokens - n := by
  refine ⟨?_, fun now rl => rfl, ?_⟩
  · have hg := runRL_good rpp period hrpp hper ops (mkRateLimiter rpp period t0)
      ⟨rfl, rfl, hrpp, le_refl _⟩ hops
    exact ⟨hg.2.2.1, hg.2.2.2⟩
  · intro now n rl h
    by_cases hcase : n ≤ (refillTokens now rl).tokens
    · simp [acquire, hcase]
    · simp [acquire, hcase] at h

/-- C9 witness: capacity 5, period 60, one `acquire(1)` at time 1. -/
theorem c9_witness :
    (0 : ℚ) ≤ 5 ∧ (0 : ℚ) < 60 ∧ ValidSeq 0 [RLOp.acquire 1 1] ∧
      (0 ≤ (runRL (mkRateLimiter 5 60 0) [RLOp.acquire 1 1]).tokens ∧
        (runRL (mkRateLimiter 5 60 0) [RLOp.acquire 1 1]).tokens ≤ 5) :=
  ⟨by norm_num, by norm_num, by simp [ValidSeq, RLOp.time],
    (c9_rate_limiter_invariant 5 60 0 [RLOp.acquire 1 1] (by norm_num)
      (by norm_num) (by simp [ValidSeq, RLOp.time])).1⟩

theorem runCache_evictions :
    ∀ (ops : List CacheOp) (c : CryptoCache),
      (runCache c ops).evictions = c.evictions := by
  intro ops
  induction ops with
  | nil => intro c; rfl
  | cons op rest ih =>
    intro c
    have : (cacheStep c op).evictions = c.evictions := by
      cases op with
      | get now key =>
        simp only [cacheStep, cacheGet]
        rcases h : storeGet now key c.store with ⟨_ | v, st⟩ <;> simp [h]
      | set now key value => rfl
      | delete key => rfl
      | clear => rfl
      | invalidatePattern pat => rfl
    rw [runCache, List.foldl_cons, ← runCache, ih, this]

section

attribute [local semireducible] Rat.add

/-- C10: the `evictions` counter reported by `get_stats` stays 0 across
every sequence of cache operations, even when inserting more distinct keys
than `max_size` makes the store evict entries (three inserts into a
two-entry cache leave two entries, yet `evictions` is still 0). -/
theorem c10_evictions_zero (ttl : ℚ) (maxSize : Nat) (ops : List CacheOp) :
    (getStats (runCache (mkCryptoCache ttl maxSize) ops)).evictions = 0 ∧
      (getStats (runCache (mkCryptoCache 300 2)
        [CacheOp.set 0 "k1" "v1", CacheOp.set 0 "k2" "v2",
          CacheOp.set 0 "k3" "v3"])).size = 2 ∧
      (getStats (runCache (mkCryptoCache 300 2)
        [CacheOp.set 0 "k1" "v1", CacheOp.set 0 "k2" "v2",
          CacheOp.set 0 "k3" "v3"])).evictions = 0 := by
  refine ⟨?_, by decide, by decide⟩
  show (runCache (mkCryptoCache ttl maxSize) ops).evictions = 0
  rw [runCache_evictions]
  rfl

end

end CryptoMCP
